import Mathlib

/-!
Verification of the natural-language specification of `system_info.py`
(repository chief8192/system-info) against a shallow embedding of the
script in Lean 4.

The script is a linear pipeline: collectors (CPU / memory / disk /
network / os-release / geolocation HTTP call / uptime), pure formatters
(`BytesToHuman`, `SafeGet`, os-release parsing), a table builder (rows
added section by section) and a single final `console.print`.

Modelling conventions:
* Collector outputs are inputs of the model (`Env`): the embedding is a
  function of the data the operating system and the network hand the
  script, never of the live machine.
* Python's numeric formatting `"{:.1f}"` is modelled with exact rational
  arithmetic (round-half-to-even on the exact quotient).  At every
  concrete input appearing in a theorem below the binary double is
  exact, so the exact value and the double agree.  The division
  `num_bytes / current_unit_size` additionally converts its integer
  operand to a binary64 float and raises `OverflowError` when that
  conversion exceeds the double range: `BytesToHumanPy` models this
  error path explicitly (`none`), while `BytesToHuman` is the value in
  the convertible range.
* An uncaught Python exception (the geolocation call, a `KeyError` from
  a direct dictionary index) is modelled by `Except.error` / `Option.none`:
  the run aborts with no table output.
-/

namespace SystemInfo

/-! ### Byte formatter, `BytesToHuman` (src lines 35-48)

Python:
```
current_unit_size = 1024
units = ["B", "K", "M", "G", "T", "P", "E", "Z", "Y"]
for i, unit in enumerate(units):
    next_unit_size = math.pow(1024, i + 1)
    if num_bytes < next_unit_size or unit == units[-1]:
        num_units = num_bytes / current_unit_size
        return f"{num_units:.1f}{unit}"
    current_unit_size = next_unit_size
```
Note: `current_unit_size` starts at `1024` (not `1`), so on the very
first iteration (unit `B`) the byte count is divided by 1024. -/

/-- Round the exact quotient `n / c` to the nearest integer, ties to even:
the rounding Python's `"{:.1f}"` performs (on the binary double). -/
def roundHalfEven (n c : Nat) : Nat :=
  let q := n / c
  let r := n % c
  if 2 * r < c then q
  else if c < 2 * r then q + 1
  else if q % 2 = 0 then q else q + 1

/-- `f"{b / c:.1f}"`: one decimal digit, exact-rational model. -/
def fmt1 (b c : Nat) : String :=
  let t := roundHalfEven (10 * b) c
  toString (t / 10) ++ "." ++ toString (t % 10)

/-- The fixed unit sequence of `BytesToHuman`. -/
def units : List String := ["B", "K", "M", "G", "T", "P", "E", "Z", "Y"]

/-- The `for i, unit in enumerate(units)` loop.  `csz` carries
`current_unit_size`.  The `rest = []` disjunct is Python's
`unit == units[-1]` test (the nine units are pairwise distinct, so
being equal to the last element is being at the last index).  The `[]`
case is unreachable: the loop always returns at the last unit. -/
def btGo (num_bytes : Nat) : List String → Nat → Nat → String
  | [], _, _ => ""
  | u :: rest, i, csz =>
      let next := 1024 ^ (i + 1)
      if num_bytes < next ∨ rest = [] then fmt1 num_bytes csz ++ u
      else btGo num_bytes rest (i + 1) next

/-- `BytesToHuman(num_bytes)` of src lines 35-48, with the source's
initial `current_unit_size = 1024`, in the range where the int-to-float
conversion of the division succeeds (`BytesToHumanPy` adds the
out-of-range error path). -/
def BytesToHuman (num_bytes : Nat) : String :=
  btGo num_bytes units 0 1024

/-- The least nonnegative integer whose conversion to an IEEE-754
binary64 double fails in CPython.  `PyLong_AsDouble` rounds to nearest,
ties to even, and raises `OverflowError` when the result would be
infinite: the largest finite double is `2 ^ 1024 - 2 ^ 971`, integers
below `2 ^ 1024 - 2 ^ 970` round down to it or below, and the tie at
`2 ^ 1024 - 2 ^ 970` rounds up to `2 ^ 1024`, i.e. to infinity.  So the
conversion succeeds exactly for magnitudes below `2 ^ 1024 - 2 ^ 970`. -/
def floatOverflowBound : Nat := 2 ^ 1024 - 2 ^ 970

/-- The loop of `BytesToHuman` with Python's error path:
`num_bytes / current_unit_size` converts `num_bytes` to a float (from
the second iteration `current_unit_size` is a float, `math.pow`; in the
first, int/int true division also produces a float) and raises
`OverflowError` (`none`) when `num_bytes` exceeds the double range.
The overflow test is uniform over the branches because it can only
succeed in the last (`Y`) branch: every other returning branch requires
`num_bytes < 1024 ^ (i + 1) ≤ 1024 ^ 8`, far below the bound — and in
the first branch the int/int quotient is below 1, overflow-free. -/
def btGoPy (num_bytes : Nat) : List String → Nat → Nat → Option String
  | [], _, _ => some ""
  | u :: rest, i, csz =>
      let next := 1024 ^ (i + 1)
      if num_bytes < next ∨ rest = [] then
        if floatOverflowBound ≤ num_bytes then none
        else some (fmt1 num_bytes csz ++ u)
      else btGoPy num_bytes rest (i + 1) next

/-- `BytesToHuman(num_bytes)` of src lines 35-48 with CPython's
`OverflowError` on the float conversion modelled as `none`. -/
def BytesToHumanPy (num_bytes : Nat) : Option String :=
  btGoPy num_bytes units 0 1024

/-! ### Safe lookup, `SafeGet` (src lines 51-52)

Python: `return str(d.get(k, "????"))`.  The dictionaries it is applied
to (`cpu_info`, `ip_info`) hold strings and integers, so values are a
small sum type with Python's `str` as `pyStr`. -/

/-- A Python dictionary value as the script uses them. -/
inductive PyVal where
  | str (s : String)
  | int (n : Int)
deriving DecidableEq

/-- Python's `str` on a `PyVal`. -/
def pyStr : PyVal → String
  | PyVal.str s => s
  | PyVal.int n => toString n

/-- `d.get(k)`: lookup in a Python dict, modelled as an association list
whose keys are unique (as in a dict). -/
def dictGet {α : Type} : List (String × α) → String → Option α
  | [], _ => none
  | (k2, v) :: rest, k => if k2 = k then some v else dictGet rest k

/-- `SafeGet(d, k)` of src lines 51-52. -/
def SafeGet (d : List (String × PyVal)) (k : String) : String :=
  match dictGet d k with
  | some v => pyStr v
  | none => pyStr (PyVal.str "????")

/-! ### os-release parsing, `LoadOsRelease` (src lines 55-66)

Python:
```
results = {}
if os.path.exists("/etc/os-release"):
    with open(...) as f:
        for line in f:
            if "=" in line:
                pieces = line.split("=")
                results[pieces[0].strip('" \n')] = pieces[1].strip('" \n')
return results
```
The file's existence/content is the model input (`Option String`).
Python's line iteration keeps the trailing newline on each line; here
lines are split at the newline instead, which is extensionally the same
because `strip('" \n')` removes boundary newlines either way. -/

/-- Membership in Python's strip set `'" \n'`. -/
def isStripChar (c : Char) : Bool :=
  c == '"' || c == ' ' || c == '\n'

/-- Python `s.strip('" \n')`: drop the strip characters from both ends. -/
def stripChars (l : List Char) : List Char :=
  ((l.dropWhile isStripChar).reverse.dropWhile isStripChar).reverse

/-- Python `s.split(c)` for a single-character separator: split at every
occurrence of `c`, keeping empty pieces (`"".split(c) == [""]`). -/
def splitOnChar (c : Char) : List Char → List (List Char)
  | [] => [[]]
  | x :: xs =>
      if x = c then [] :: splitOnChar c xs
      else
        match splitOnChar c xs with
        | [] => [[x]]
        | y :: ys => (x :: y) :: ys

/-- One iteration of the `for line in f` body: lines without `=` are
skipped; otherwise `pieces = line.split("=")` and the stripped
`pieces[0]` / `pieces[1]` become key and value.  (`pieces[1]` exists
whenever `=` occurs in the line, so the `getD` default is never used.) -/
def parseOsReleaseLine (line : List Char) : Option (String × String) :=
  if '=' ∈ line then
    let pieces := splitOnChar '=' line
    some (⟨stripChars (pieces.getD 0 [])⟩, ⟨stripChars (pieces.getD 1 [])⟩)
  else none

/-- `results[k] = v` on a Python dict: replace in place if the key is
present, else append. -/
def dictInsertS (d : List (String × String)) (k v : String) :
    List (String × String) :=
  if d.any (fun p => p.1 == k) then
    d.map (fun p => if p.1 == k then (p.1, v) else p)
  else d ++ [(k, v)]

/-- `LoadOsRelease()` of src lines 55-66, as a function of the file's
content (`none` models an absent `/etc/os-release`, for which the
function returns the empty dict). -/
def LoadOsRelease : Option String → List (String × String)
  | none => []
  | some contents =>
      (splitOnChar '\n' contents.toList).foldl
        (fun results line =>
          match parseOsReleaseLine line with
          | some (k, v) => dictInsertS results k v
          | none => results)
        []

/-! ### The `main` pipeline (src lines 69-159)

`main` hides the cursor, collects (inside a status spinner), adds rows
section by section to one table, and prints the table exactly once at
the end (src line 155).  Collector outputs are the fields of `Env`; the
geolocation HTTP call of src line 128 can raise, so its outcome is an
`Except`.  An uncaught exception is modelled as `Except.error`: the run
aborts, nothing further (the single print included) happens. -/

/-- One entry of `psutil.net_if_addrs()[interface]`: the address family
(`AF_INET` has value 2), the address and the netmask. -/
structure IfAddr where
  family : Nat
  address : String
  netmask : String
deriving DecidableEq

/-- Everything the environment hands the script in one run.  Numeric
percents are the exact values psutil reports (nonnegative).
`boot_seconds` is `psutil.boot_time()`, a whole-second value on Linux
(`/proc/stat` `btime`); `now_seconds` is `int(time.time())`. -/
structure Env where
  cpu_info : List (String × PyVal)
  model_file : Option String
  vmem_used : Nat
  vmem_total : Nat
  vmem_percent : ℚ
  disk_used : Nat
  disk_total : Nat
  disk_percent : ℚ
  if_addrs : List (String × List IfAddr)
  os_release_file : Option String
  ip_info : Except String (List (String × PyVal))
  python_version : String
  now_seconds : Int
  boot_seconds : Int

/-- Python whitespace for the default `str.strip()`. -/
def isPySpace (c : Char) : Bool :=
  c == ' ' || c == '\t' || c == '\n' || c == '\r' || c == '\x0b' || c == '\x0c'

/-- Python `s.strip()` (src line 98, the device-tree model file). -/
def pyStripAll (s : String) : String :=
  ⟨((s.toList.dropWhile isPySpace).reverse.dropWhile isPySpace).reverse⟩

/-- `f"{q:.1f}"` for the nonnegative psutil percent values. -/
def fmtPercent (q : ℚ) : String :=
  fmt1 q.num.toNat q.den

/-- CPU section rows (src lines 90-99): the `model:` row is added only
when `/proc/device-tree/model` exists. -/
def cpuRows (cpu_info : List (String × PyVal)) (model_file : Option String) :
    List (String × String) :=
  [("cpu:", SafeGet cpu_info "brand_raw"),
   ("cores:", SafeGet cpu_info "count" ++ " x " ++ SafeGet cpu_info "hz_actual_friendly"),
   ("arch:", SafeGet cpu_info "arch_string_raw")]
  ++ match model_file with
     | some m => [("model:", pyStripAll m)]
     | none => []

/-- Memory row (src lines 103-105); the source has two spaces before the
parenthesis. -/
def memRow (used total : Nat) (percent : ℚ) : String × String :=
  ("mem:", BytesToHuman used ++ " / " ++ BytesToHuman total
    ++ "  (" ++ fmtPercent percent ++ "%)")

/-- Disk row (src lines 109-113). -/
def diskRow (used total : Nat) (percent : ℚ) : String × String :=
  ("disk:", BytesToHuman used ++ " / " ++ BytesToHuman total
    ++ " (" ++ fmtPercent percent ++ "%)")

/-- The `values` list of src lines 118-121: the `f"{address} ({netmask})"`
strings of the AF_INET (family value 2) addresses, in reported order. -/
def ipv4Values (addrs : List IfAddr) : List String :=
  (addrs.filter (fun a => a.family == 2)).map
    (fun a => a.address ++ " (" ++ a.netmask ++ ")")

/-- Rows of one interface (src lines 118-124):
`labels = [f"{interface}:"] + [""] * (len(values) - 1)` zipped with
`values`.  With no IPv4 address, `zip` of `[label]` with `[]` is empty:
the interface contributes no row at all. -/
def interfaceRows (interface : String) (addrs : List IfAddr) :
    List (String × String) :=
  let values := ipv4Values addrs
  let labels := [interface ++ ":"] ++ List.replicate (values.length - 1) ""
  List.zip labels values

/-- Network section rows (src lines 117-124), interfaces in reported
order. -/
def networkRows (if_addrs : List (String × List IfAddr)) :
    List (String × String) :=
  if_addrs.flatMap (fun p => interfaceRows p.1 p.2)

/-- Geolocation section rows (src lines 129-134) from a successfully
fetched and parsed `ip_info`; the source's `"location: "` label has a
trailing space. -/
def geoRows (ip_info : List (String × PyVal)) : List (String × String) :=
  [("public ip:", SafeGet ip_info "ip"),
   ("location: ", SafeGet ip_info "city" ++ ", " ++ SafeGet ip_info "region"
      ++ ", " ++ SafeGet ip_info "country")]

/-- The OS row value (src lines 138-141):
`f"{os_release['NAME']} {os_release['VERSION_ID']} ({os_release['VERSION_CODENAME']})"`.
These are direct dictionary indexings, not `SafeGet`: a missing key
raises `KeyError` (modelled as `none`) and the run aborts. -/
def osRow (os_release : List (String × String)) : Option String :=
  match dictGet os_release "NAME" with
  | none => none
  | some n =>
    match dictGet os_release "VERSION_ID" with
    | none => none
    | some v =>
      match dictGet os_release "VERSION_CODENAME" with
      | none => none
      | some c => some (n ++ " " ++ v ++ " (" ++ c ++ ")")

/-- `"%02d"`-pad the minute and second fields. -/
def pad2 (n : Nat) : String :=
  if n < 10 then "0" ++ toString n else toString n

/-- Python `str(datetime.timedelta(seconds=s))` for whole seconds:
floor-divide into days (singular `day` exactly for |days| = 1), then
`h:mm:ss`. -/
def formatTimedelta (s : Int) : String :=
  let days := Int.fdiv s 86400
  let rem := (Int.fmod s 86400).toNat
  let h := rem / 3600
  let m := rem % 3600 / 60
  let sec := rem % 60
  (if days = 0 then ""
   else toString days ++ (if days = 1 ∨ days = -1 then " day, " else " days, "))
    ++ toString h ++ ":" ++ pad2 m ++ ":" ++ pad2 sec

/-- Uptime row (src lines 149-152): the rendered duration is a function
of the difference `now_seconds - boot_seconds` only. -/
def uptimeRow (now_seconds boot_seconds : Int) : String × String :=
  ("uptime:", formatTimedelta (now_seconds - boot_seconds))

/-- `main` (src lines 69-155) as the table it prints: all rows in source
order, or the uncaught exception that aborted the run.  The geolocation
fetch (src line 128) happens before the OS row's dictionary indexing
(src line 138), so a network failure wins over a `KeyError`; either
abort yields `Except.error`, and the single `console.print(table)` of
src line 155 never runs — there is no partial output channel. -/
def mainRows (e : Env) : Except String (List (String × String)) :=
  let os_release := LoadOsRelease e.os_release_file
  let pre :=
    cpuRows e.cpu_info e.model_file
    ++ [memRow e.vmem_used e.vmem_total e.vmem_percent]
    ++ [diskRow e.disk_used e.disk_total e.disk_percent]
    ++ networkRows e.if_addrs
  match e.ip_info with
  | Except.error err => Except.error err
  | Except.ok ip_info =>
    match osRow os_release with
    | none => Except.error "KeyError"
    | some os =>
      Except.ok
        (pre ++ geoRows ip_info
          ++ [("os:", os), ("python:", e.python_version),
              uptimeRow e.now_seconds e.boot_seconds])

/-- Console operations available to `main`.  `showCursor` is the
console's cursor-restore call (`show_cursor(True)`); it is part of the
API but the script never invokes it.  The status spinner of src line 82
is entered and left (its internal cursor handling belongs to the `rich`
library, not to this script). -/
inductive ConsoleEv where
  | hideCursor
  | showCursor
  | statusEnter
  | statusExit
  | printTable
deriving DecidableEq

/-- The console-call trace of one run of `main`: `show_cursor(False)`
(src line 73), the status spinner, then — only when no exception
aborted the run — the single table print (src line 155).  The source
contains no cursor-restoring call (`show_cursor(True)`) and no
`try/finally`, on any path. -/
def mainTrace (e : Env) : List ConsoleEv :=
  [ConsoleEv.hideCursor, ConsoleEv.statusEnter, ConsoleEv.statusExit]
  ++ match e.ip_info with
     | Except.error _ => []
     | Except.ok _ =>
       match osRow (LoadOsRelease e.os_release_file) with
       | none => []
       | some _ => [ConsoleEv.printTable]

/-! ### Concrete runs used by witnesses and counterexamples -/

/-- A small healthy environment: every collector succeeds and the
os-release file carries all three structured fields. -/
def envBase : Env :=
  ⟨[("brand_raw", PyVal.str "TestCPU"), ("count", PyVal.int 4),
    ("hz_actual_friendly", PyVal.str "2.0000 GHz"),
    ("arch_string_raw", PyVal.str "x86_64")],
   none, 2048, 4096, 50, 1024, 4096, 25,
   [("eth0", [⟨2, "192.168.1.5", "255.255.255.0"⟩])],
   some "NAME=\"Ubuntu\"\nVERSION_ID=\"22.04\"\nVERSION_CODENAME=jammy\n",
   Except.ok [("ip", PyVal.str "203.0.113.7"), ("city", PyVal.str "Springfield"),
              ("region", PyVal.str "Illinois"), ("country", PyVal.str "US")],
   "3.11.2", 1000000, 909939⟩

/-- `envBase` with the geolocation HTTP call failing. -/
def envNetDown : Env :=
  ⟨envBase.cpu_info, envBase.model_file, envBase.vmem_used, envBase.vmem_total,
   envBase.vmem_percent, envBase.disk_used, envBase.disk_total,
   envBase.disk_percent, envBase.if_addrs, envBase.os_release_file,
   Except.error "URLError", envBase.python_version, envBase.now_seconds,
   envBase.boot_seconds⟩

/-- `envBase` with an os-release file that lacks `VERSION_CODENAME`
(as on Debian or Fedora). -/
def envNoCodename : Env :=
  ⟨envBase.cpu_info, envBase.model_file, envBase.vmem_used, envBase.vmem_total,
   envBase.vmem_percent, envBase.disk_used, envBase.disk_total,
   envBase.disk_percent, envBase.if_addrs,
   some "NAME=\"Debian GNU/Linux\"\nVERSION_ID=\"12\"\n",
   envBase.ip_info, envBase.python_version, envBase.now_seconds,
   envBase.boot_seconds⟩

/-- The two IPv4 addresses of the spec's `eth0` example. -/
def eth0Addrs : List IfAddr :=
  [⟨2, "192.168.1.5", "255.255.255.0"⟩, ⟨2, "10.0.0.7", "255.0.0.0"⟩]

/-- An interface carrying only a non-IPv4 (family 10, AF_INET6) address. -/
def loAddrs : List IfAddr :=
  [⟨10, "fe80::1", "ffff:ffff:ffff:ffff::"⟩]

/-! ## Helper lemmas -/

/-- The loop of `BytesToHuman`, unrolled: the first unit whose threshold
`1024 ^ (i + 1)` exceeds the input wins, `Y` catches everything else,
and the divisor is `current_unit_size` — `1024` for the `B` branch,
`1024 ^ i` afterwards. -/
theorem bytesToHuman_cases (b : Nat) :
    BytesToHuman b =
      if b < 1024 then fmt1 b 1024 ++ "B"
      else if b < 1024 ^ 2 then fmt1 b 1024 ++ "K"
      else if b < 1024 ^ 3 then fmt1 b (1024 ^ 2) ++ "M"
      else if b < 1024 ^ 4 then fmt1 b (1024 ^ 3) ++ "G"
      else if b < 1024 ^ 5 then fmt1 b (1024 ^ 4) ++ "T"
      else if b < 1024 ^ 6 then fmt1 b (1024 ^ 5) ++ "P"
      else if b < 1024 ^ 7 then fmt1 b (1024 ^ 6) ++ "E"
      else if b < 1024 ^ 8 then fmt1 b (1024 ^ 7) ++ "Z"
      else fmt1 b (1024 ^ 8) ++ "Y" := by
  simp only [BytesToHuman, units, btGo]
  norm_num [List.cons_ne_nil]

/-- Every branch result of `BytesToHuman` has the shape
`digits ++ "." ++ digit ++ unit`. -/
theorem btPattern (b c : Nat) (u : String) (hu : u ∈ units) :
    ∃ (n d : Nat) (u2 : String), d < 10 ∧ u2 ∈ units ∧
      fmt1 b c ++ u = (toString n ++ "." ++ toString d) ++ u2 :=
  ⟨roundHalfEven (10 * b) c / 10, roundHalfEven (10 * b) c % 10, u,
    Nat.mod_lt _ (by decide), hu, rfl⟩

/-- Python `split`: a separator-free string is a single piece. -/
theorem splitOnChar_not_mem (c : Char) (l : List Char) (h : c ∉ l) :
    splitOnChar c l = [l] := by
  induction l with
  | nil => rfl
  | cons x xs ih =>
      have hx : ¬ x = c := fun he => h (he ▸ List.mem_cons_self x xs)
      have hxs : c ∉ xs := fun hm => h (List.mem_cons_of_mem x hm)
      simp only [splitOnChar, if_neg hx, ih hxs]

/-- Python `split`: the text before the first separator is the first
piece. -/
theorem splitOnChar_append_sep (c : Char) (k rest : List Char) (h : c ∉ k) :
    splitOnChar c (k ++ c :: rest) = k :: splitOnChar c rest := by
  induction k with
  | nil => simp [splitOnChar]
  | cons x xs ih =>
      have hx : ¬ x = c := fun he => h (he ▸ List.mem_cons_self x xs)
      have hxs : c ∉ xs := fun hm => h (List.mem_cons_of_mem x hm)
      simp only [List.cons_append, splitOnChar, if_neg hx, List.append_eq, ih hxs]

/-- A `KEY=VALUE` line with `=`-free key and value parses to the
stripped key/value pair. -/
theorem parseOsReleaseLine_single (k v : List Char) (hk : '=' ∉ k) (hv : '=' ∉ v) :
    parseOsReleaseLine (k ++ '=' :: v) = some (⟨stripChars k⟩, ⟨stripChars v⟩) := by
  have hmem : '=' ∈ k ++ '=' :: v :=
    List.mem_append.mpr (Or.inr (List.mem_cons_self _ _))
  rw [parseOsReleaseLine, if_pos hmem, splitOnChar_append_sep _ _ _ hk,
    splitOnChar_not_mem _ _ hv]
  rfl

/-- A line whose value part contains a further `=`: the stored value is
the piece between the first and the second `=`, because the source
splits on every `=` and keeps `pieces[1]`. -/
theorem parseOsReleaseLine_double (k v w : List Char) (hk : '=' ∉ k) (hv : '=' ∉ v) :
    parseOsReleaseLine (k ++ '=' :: (v ++ '=' :: w))
      = some (⟨stripChars k⟩, ⟨stripChars v⟩) := by
  have hmem : '=' ∈ k ++ '=' :: (v ++ '=' :: w) :=
    List.mem_append.mpr (Or.inr (List.mem_cons_self _ _))
  rw [parseOsReleaseLine, if_pos hmem, splitOnChar_append_sep _ _ _ hk,
    splitOnChar_append_sep _ _ _ hv]
  rfl

/-- Zipping a constant-replicate of matching length is mapping the
constant in. -/
theorem zip_replicate_eq_map {α β : Type} (c : α) (l : List β) :
    List.zip (List.replicate l.length c) l = l.map (fun w => (c, w)) := by
  induction l with
  | nil => rfl
  | cons x xs ih =>
      simp [List.length_cons, List.replicate_succ, List.zip_cons_cons, ih]

/-! ## Claim theorems -/

/-- C1: the spec's algorithm — smallest unit with `b < 1024 ^ (i + 1)`,
divide by `1024 ^ i` — fails on the code in the `B` range: the source
initialises `current_unit_size` to `1024`, so byte counts below 1024
are divided by 1024 instead of by `1024 ^ 0 = 1`.  At the spec's own
test value 1023 the code yields `"1.0B"`, not `"1023.0B"` (and 512
yields `"0.5B"`); from the `K` unit upwards the divisor is `1024 ^ i`
as claimed, e.g. 1536 yields `"1.5K"`. -/
theorem c1_bytesToHuman_divides_b_unit_by_1024 :
    BytesToHuman 1023 = "1.0B" ∧ BytesToHuman 1023 ≠ "1023.0B"
  ∧ BytesToHuman 512 = "0.5B" ∧ BytesToHuman 1536 = "1.5K" := by decide

/-- C2: when the os-release file exists but lacks a structured field,
the missing field does not render as `"????"` — the OS row indexes the
dictionary directly (src lines 138-141), so the lookup fails
(`KeyError`) and the run aborts with no output.  Evaluated on a
Debian-style file carrying `NAME` and `VERSION_ID` but no
`VERSION_CODENAME`; this script variant also contains no kernel-name
fallback path at all. -/
theorem c2_missing_os_release_field_aborts :
    osRow (LoadOsRelease (some "NAME=\"Debian GNU/Linux\"\nVERSION_ID=\"12\"\n")) = none
  ∧ mainRows envNoCodename = Except.error "KeyError" :=
  ⟨by decide, by rfl⟩

/-- C3: a failing geolocation request propagates as the run's uncaught
error: `mainRows` returns exactly that error and can return no row list
at all, because the single table print happens only after every section
has been added. -/
theorem c3_geo_failure_no_table_output (e : Env) (err : String)
    (h : e.ip_info = Except.error err) :
    mainRows e = Except.error err ∧ ∀ rows, mainRows e ≠ Except.ok rows := by
  have h1 : mainRows e = Except.error err := by
    simp only [mainRows, h]
  exact ⟨h1, fun rows hc => by rw [h1] at hc; exact Except.noConfusion hc⟩

/-- Witness for C3: the concrete network-failure run aborts with the
network error. -/
theorem c3_geo_failure_no_table_output_witness :
    mainRows envNetDown = Except.error "URLError" :=
  (c3_geo_failure_no_table_output envNetDown "URLError" rfl).1

/-- C4: the claim's guarantee does not hold — on no run, whatever the
environment and wherever it aborts, does the script issue a
cursor-restore call: `main` hides the cursor at startup (src line 73)
and the source contains no `show_cursor(True)` and no `try/finally` on
any path, so termination leaves the cursor-visibility state wherever
the last (library-internal) write put it, not restored by the program. -/
theorem c4_no_cursor_restore_on_any_path (e : Env) :
    ConsoleEv.showCursor ∉ mainTrace e := by
  unfold mainTrace
  cases h1 : e.ip_info with
  | error err => simp
  | ok ip =>
      cases h2 : osRow (LoadOsRelease e.os_release_file) with
      | none => simp
      | some s => simp

/-- Witness for C4: in particular the network-failure run emits no
cursor-restore call. -/
theorem c4_no_cursor_restore_on_any_path_witness :
    ConsoleEv.showCursor ∉ mainTrace envNetDown :=
  c4_no_cursor_restore_on_any_path envNetDown

/-- C5 counterexample: for a line whose value contains `=`, the stored
value is NOT everything after the first `=`: `K=a=b` parses to value
`"a"`, not `"a=b"`, because the source splits on every `=` and keeps
only `pieces[1]`. -/
theorem c5_value_with_eq_truncated :
    LoadOsRelease (some "K=a=b") = [("K", "a")]
  ∧ LoadOsRelease (some "K=a=b") ≠ [("K", "a=b")] := by decide

/-- C5 (amended): the parser splits each `=`-containing line on `=` and
strips `'" \n'` from key and value; the spec's example file yields
exactly the expected mapping, any `KEY=VALUE` line with `=`-free key
and value parses to the stripped pair, and for a line with a second `=`
the value is the piece between the first and second `=` (everything
from the second `=` on is dropped). -/
theorem c5_os_release_parsing :
    LoadOsRelease (some "NAME=\"Ubuntu\"\nVERSION_ID=\"22.04\"\nVERSION_CODENAME=jammy\n")
      = [("NAME", "Ubuntu"), ("VERSION_ID", "22.04"), ("VERSION_CODENAME", "jammy")]
  ∧ (∀ k v : List Char, '=' ∉ k → '=' ∉ v →
      parseOsReleaseLine (k ++ '=' :: v) = some (⟨stripChars k⟩, ⟨stripChars v⟩))
  ∧ (∀ k v w : List Char, '=' ∉ k → '=' ∉ v →
      parseOsReleaseLine (k ++ '=' :: (v ++ '=' :: w))
        = some (⟨stripChars k⟩, ⟨stripChars v⟩)) :=
  ⟨by decide, parseOsReleaseLine_single, parseOsReleaseLine_double⟩

/-- Witness for C5: the general line lemma applied to the concrete line
`K=a=b`. -/
theorem c5_os_release_parsing_witness :
    parseOsReleaseLine (['K'] ++ '=' :: (['a'] ++ '=' :: ['b']))
      = some (⟨stripChars ['K']⟩, ⟨stripChars ['a']⟩) :=
  c5_os_release_parsing.2.2 ['K'] ['a'] ['b'] (by decide) (by decide)

/-- In the exact (overflow-free) model, every output of `BytesToHuman`
matches `digits ++ "." ++ digit ++ unit` with the unit drawn from
`B K M G T P E Z Y`; the anchor values `0 ↦ "0.0B"`, `1024 ↦ "1.0K"`,
`1024 ^ 8 ↦ "1.0Y"` hold, and every input beyond `1024 ^ 8` renders
with unit `Y`. -/
theorem bytesToHuman_exact_pattern :
    (∀ b : Nat, ∃ (n d : Nat) (u : String), d < 10 ∧ u ∈ units ∧
        BytesToHuman b = (toString n ++ "." ++ toString d) ++ u)
  ∧ BytesToHuman 0 = "0.0B"
  ∧ BytesToHuman 1024 = "1.0K"
  ∧ BytesToHuman (1024 ^ 8) = "1.0Y"
  ∧ (∀ b : Nat, 1024 ^ 8 < b → ∃ (n d : Nat), d < 10 ∧
        BytesToHuman b = (toString n ++ "." ++ toString d) ++ "Y") := by
  refine ⟨?_, by decide, by decide, by decide, ?_⟩
  · intro b
    rw [bytesToHuman_cases b]
    split_ifs <;> exact btPattern b _ _ (by decide)
  · intro b hb
    rw [bytesToHuman_cases b]
    split_ifs with h1 h2 h3 h4 h5 h6 h7 h8
    · exfalso; norm_num at h1 hb; omega
    · exfalso; norm_num at h2 hb; omega
    · exfalso; norm_num at h3 hb; omega
    · exfalso; norm_num at h4 hb; omega
    · exfalso; norm_num at h5 hb; omega
    · exfalso; norm_num at h6 hb; omega
    · exfalso; norm_num at h7 hb; omega
    · exfalso; norm_num at h8 hb; omega
    · exact ⟨roundHalfEven (10 * b) (1024 ^ 8) / 10,
        roundHalfEven (10 * b) (1024 ^ 8) % 10, Nat.mod_lt _ (by decide), rfl⟩

/-- `btGoPy` is `btGo` guarded by the float-conversion bound: on a
nonempty unit list, it returns `none` exactly when the integer operand
exceeds the double range and the exact value otherwise. -/
theorem btGoPy_eq (b : Nat) :
    ∀ (l : List String) (i csz : Nat), l ≠ [] →
      btGoPy b l i csz =
        if floatOverflowBound ≤ b then none else some (btGo b l i csz) := by
  intro l
  induction l with
  | nil => intro i csz hl; exact absurd rfl hl
  | cons u rest ih =>
      intro i csz hl
      by_cases hc : b < 1024 ^ (i + 1) ∨ rest = []
      · simp only [btGoPy, btGo]
        rw [if_pos hc, if_pos hc]
      · simp only [btGoPy, btGo]
        rw [if_neg hc, if_neg hc,
          ih (i + 1) (1024 ^ (i + 1)) (fun he => hc (Or.inr he))]

/-- `BytesToHumanPy` returns the exact `BytesToHuman` value below the
float-conversion bound and the `OverflowError` path (`none`) at or
above it. -/
theorem bytesToHumanPy_eq (b : Nat) :
    BytesToHumanPy b =
      if floatOverflowBound ≤ b then none else some (BytesToHuman b) :=
  btGoPy_eq b units 0 1024 (by decide)

/-- C6 counterexample: the formatter is not total — at `2 ^ 1024` the
int-to-float conversion inside `num_bytes / current_unit_size`
overflows, so CPython raises `OverflowError` (no string is returned)
instead of producing a `Y`-saturated string as the claim asserts for
every nonnegative integer. -/
theorem c6_overflow_at_2_pow_1024 : BytesToHumanPy (2 ^ 1024) = none := by
  rw [bytesToHumanPy_eq,
    if_pos (show floatOverflowBound ≤ 2 ^ 1024 from Nat.sub_le _ _)]

set_option maxRecDepth 8192 in
/-- C6 (amended): below `floatOverflowBound` — the least integer whose
float conversion overflows, far beyond any physical byte count — the
formatter totally returns a string matching
`digits ++ "." ++ digit ++ unit`; the anchors `0 ↦ "0.0B"`,
`1024 ↦ "1.0K"`, `1024 ^ 8 ↦ "1.0Y"` hold, inputs beyond `1024 ^ 8`
(still below the bound) saturate at unit `Y`, and at or above the bound
the division raises `OverflowError` and no string is returned. -/
theorem c6_bytesToHuman_below_float_limit :
    (∀ b : Nat, b < floatOverflowBound → ∃ (n d : Nat) (u : String),
        d < 10 ∧ u ∈ units ∧
        BytesToHumanPy b = some ((toString n ++ "." ++ toString d) ++ u))
  ∧ BytesToHumanPy 0 = some "0.0B"
  ∧ BytesToHumanPy 1024 = some "1.0K"
  ∧ BytesToHumanPy (1024 ^ 8) = some "1.0Y"
  ∧ (∀ b : Nat, 1024 ^ 8 < b → b < floatOverflowBound → ∃ (n d : Nat),
        d < 10 ∧
        BytesToHumanPy b = some ((toString n ++ "." ++ toString d) ++ "Y"))
  ∧ (∀ b : Nat, floatOverflowBound ≤ b → BytesToHumanPy b = none) := by
  refine ⟨?_, by decide, by decide, by decide, ?_, ?_⟩
  · intro b hb
    rw [bytesToHumanPy_eq b, if_neg (by omega)]
    obtain ⟨n, d, u, hd, hu, he⟩ := bytesToHuman_exact_pattern.1 b
    exact ⟨n, d, u, hd, hu, by rw [he]⟩
  · intro b hb1 hb2
    rw [bytesToHumanPy_eq b, if_neg (by omega)]
    obtain ⟨n, d, hd, he⟩ := bytesToHuman_exact_pattern.2.2.2.2 b hb1
    exact ⟨n, d, hd, by rw [he]⟩
  · intro b hb
    rw [bytesToHumanPy_eq b, if_pos hb]

set_option maxRecDepth 8192 in
/-- Witness for C6: one byte past `1024 ^ 8` is far below the float
bound and still renders with unit `Y`. -/
theorem c6_bytesToHuman_below_float_limit_witness :
    ∃ (n d : Nat), d < 10 ∧
      BytesToHumanPy (1024 ^ 8 + 1)
        = some ((toString n ++ "." ++ toString d) ++ "Y") :=
  c6_bytesToHuman_below_float_limit.2.2.2.2.1 (1024 ^ 8 + 1)
    (Nat.lt_succ_self (1024 ^ 8)) (by decide)

/-- C7: `SafeGet` is total (it is a Lean function, hence never raises),
returns the string form of the value when the key is present and the
placeholder `"????"` when absent; in particular on the spec's two
examples. -/
theorem c7_safe_get_total :
    (∀ (d : List (String × PyVal)) (k : String) (v : PyVal),
        dictGet d k = some v → SafeGet d k = pyStr v)
  ∧ (∀ (d : List (String × PyVal)) (k : String),
        dictGet d k = none → SafeGet d k = "????")
  ∧ SafeGet [] "x" = "????"
  ∧ SafeGet [("x", PyVal.int 5)] "x" = "5" := by
  refine ⟨?_, ?_, by decide, by decide⟩
  · intro d k v h; simp [SafeGet, h]
  · intro d k h; simp [SafeGet, h, pyStr]

/-- Witness for C7: the present-key case at the spec's example. -/
theorem c7_safe_get_total_witness :
    SafeGet [("x", PyVal.int 5)] "x" = pyStr (PyVal.int 5) :=
  c7_safe_get_total.1 [("x", PyVal.int 5)] "x" (PyVal.int 5) rfl

/-- C8: an interface with `n ≥ 1` IPv4 value strings contributes exactly
`n` rows in collector order — the first labelled `interface ++ ":"`,
every further one with an empty label. -/
theorem c8_interface_continuation_rows (interface : String) (addrs : List IfAddr)
    (v : String) (vs : List String) (h : ipv4Values addrs = v :: vs) :
    interfaceRows interface addrs
      = (interface ++ ":", v) :: vs.map (fun w => ("", w))
    ∧ (interfaceRows interface addrs).length = vs.length + 1 := by
  have h1 : interfaceRows interface addrs
      = (interface ++ ":", v) :: vs.map (fun w => ("", w)) := by
    simp only [interfaceRows, h, List.length_cons, Nat.add_sub_cancel,
      List.singleton_append, List.zip_cons_cons, zip_replicate_eq_map]
  exact ⟨h1, by rw [h1]; simp⟩

/-- Witness for C8: `eth0` with two IPv4 addresses yields exactly two
rows, `"eth0:"` then a blank label. -/
theorem c8_interface_continuation_rows_witness :
    interfaceRows "eth0" eth0Addrs
      = [("eth0:", "192.168.1.5 (255.255.255.0)"), ("", "10.0.0.7 (255.0.0.0)")]
    ∧ (interfaceRows "eth0" eth0Addrs).length = 2 := by
  have h := c8_interface_continuation_rows "eth0" eth0Addrs
    "192.168.1.5 (255.255.255.0)" ["10.0.0.7 (255.0.0.0)"] (by decide)
  exact ⟨h.1.trans (by decide), h.2.trans (by decide)⟩

/-- C9: the uptime row is a function of the difference
`now_seconds - boot_seconds` only (shift-invariant), a boot time 90061
seconds before now renders `"1 day, 1:01:01"`, and 90061 seconds are
1 day, 1 hour, 1 minute, 1 second. -/
theorem c9_uptime_difference_rendering :
    (∀ now boot k : Int, uptimeRow (now + k) (boot + k) = uptimeRow now boot)
  ∧ (∀ now boot : Int, boot + 90061 = now →
      (uptimeRow now boot).2 = "1 day, 1:01:01")
  ∧ formatTimedelta 90061 = "1 day, 1:01:01"
  ∧ (90061 : Int) = 1 * 86400 + 1 * 3600 + 1 * 60 + 1 := by
  refine ⟨?_, ?_, by decide, by decide⟩
  · intro now boot k
    simp only [uptimeRow]
    rw [show now + k - (boot + k) = now - boot by ring]
  · intro now boot h
    simp only [uptimeRow]
    rw [show now - boot = 90061 by omega]
    decide

/-- Witness for C9: boot at 0, now at 90061. -/
theorem c9_uptime_difference_rendering_witness :
    (uptimeRow 90061 0).2 = "1 day, 1:01:01" :=
  c9_uptime_difference_rendering.2.1 90061 0 (by decide)

/-- C10: an interface with no IPv4 (family-value-2) address contributes
zero rows — not even a label-only row — and every value appearing in a
network row comes from a family-2 address of a listed interface. -/
theorem c10_no_rows_for_non_ipv4 :
    (∀ (interface : String) (addrs : List IfAddr),
        (∀ a ∈ addrs, a.family ≠ 2) → interfaceRows interface addrs = [])
  ∧ (∀ (ifs : List (String × List IfAddr)) (lbl val : String),
        (lbl, val) ∈ networkRows ifs →
        ∃ (name : String) (addrs : List IfAddr) (a : IfAddr),
          (name, addrs) ∈ ifs ∧ a ∈ addrs ∧ a.family = 2
            ∧ val = a.address ++ " (" ++ a.netmask ++ ")") := by
  constructor
  · intro interface addrs h
    have hv : ipv4Values addrs = [] := by
      simp only [ipv4Values, List.map_eq_nil_iff, List.filter_eq_nil_iff]
      intro a ha
      simpa using h a ha
    simp [interfaceRows, hv]
  · intro ifs lbl val hmem
    simp only [networkRows, List.mem_flatMap] at hmem
    obtain ⟨p, hp, hrow⟩ := hmem
    simp only [interfaceRows] at hrow
    have hval : val ∈ ipv4Values p.2 := (List.of_mem_zip hrow).2
    simp only [ipv4Values, List.mem_map] at hval
    obtain ⟨a, haf, hfmt⟩ := hval
    rw [List.mem_filter] at haf
    exact ⟨p.1, p.2, a, hp, haf.1, by simpa using haf.2, hfmt.symm⟩

/-- Witness for C10: an interface carrying only an IPv6 address emits
no row. -/
theorem c10_no_rows_for_non_ipv4_witness : interfaceRows "lo" loAddrs = [] :=
  c10_no_rows_for_non_ipv4.1 "lo" loAddrs (by decide)

end SystemInfo
